import Mathlib

/-!
Verification development for the youtube-installer download server
(src/server/server.js and the two serverless variants in src/unnamed/).

The JavaScript handlers are embedded shallowly: strings are Lean `String`
values, the scratch directory is the list of entry names it contains, and
each event handler becomes a pure function from the directory listing (and
the per-session data) to the listing that survives its deletions.
-/

/-- JS `String.prototype.startsWith`, as a character-list test. -/
def jsStartsWith (s p : String) : Bool :=
  p.data.isPrefixOf s.data

/-- JS `String.prototype.endsWith`, as a character-list test. -/
def jsEndsWith (s p : String) : Bool :=
  p.data.isSuffixOf s.data

/-- Occurrence of a character pattern at some position of a list. -/
def listContainsSub (pat : List Char) : List Char → Bool
  | [] => pat.isPrefixOf []
  | c :: rest => pat.isPrefixOf (c :: rest) || listContainsSub pat rest

/-- JS `String.prototype.includes`: the search string occurs somewhere. -/
def jsIncludes (s p : String) : Bool :=
  listContainsSub p.data s.data

theorem isPrefixOf_self_append (l r : List Char) : l.isPrefixOf (l ++ r) = true := by
  induction l with
  | nil => simp
  | cons a as ih => simp [List.isPrefixOf_cons₂, ih]

theorem jsStartsWith_append (s r : String) : jsStartsWith (s ++ r) s = true := by
  simp [jsStartsWith, isPrefixOf_self_append]

theorem isSuffixOf_append_self (l r : List Char) : r.isSuffixOf (l ++ r) = true := by
  simp [List.isSuffixOf, List.reverse_append, isPrefixOf_self_append]

theorem jsEndsWith_append (s r : String) : jsEndsWith (s ++ r) r = true := by
  simp [jsEndsWith, isSuffixOf_append_self]

/-! ## Periodic sweep (server.js lines 23 to 43)

Every five minutes the server lists the scratch directory and, for each
entry in listing order: an entry whose name starts with "--" is removed
without any stat call; any other entry is passed to `fs.statSync`, and is
removed when its age `Date.now() - stats.mtimeMs` exceeds 3600000 ms.
`fs.remove(...).catch(() => ...)` makes every removal fire-and-forget, so a
failed removal never influences the pass; `fs.statSync` however can throw
(for example when the entry vanished between readdir and stat), and that
exception aborts the `forEach`, to be swallowed only by the outer
try/catch around the whole pass. -/

/-- One scratch-directory entry as the sweep sees it. `statMtimeMs = none`
models a `statSync` call that throws for this entry; `removeOk` records
whether an attempted `fs.remove` would succeed, a result the handlers always
discard. -/
structure DirEntry where
  name : String
  statMtimeMs : Option Int
  removeOk : Bool
deriving DecidableEq

/-- The body of the sweep callback, run over the listing in order. Returns
the names whose removal the pass attempts, paired with `true` when a stat
call threw (which ends the `forEach` early). -/
def sweepAttempt (now : Int) : List DirEntry → List String × Bool
  | [] => ([], false)
  | e :: rest =>
    if jsStartsWith e.name "--" then
      let r := sweepAttempt now rest
      (e.name :: r.1, r.2)
    else
      match e.statMtimeMs with
      | none => ([], true)
      | some m =>
        if now - m > 3600000 then
          let r := sweepAttempt now rest
          (e.name :: r.1, r.2)
        else sweepAttempt now rest

/-- One sweep pass as the process observes it: the outer try/catch swallows
the stat exception, so the pass always yields the removals attempted before
any stat failure, and never propagates an error. -/
def sweepPass (now : Int) (dir : List DirEntry) : List String :=
  (sweepAttempt now dir).1

/-- The per-entry deletion criterion of the sweep, as a predicate. -/
def sweepCond (now : Int) (e : DirEntry) : Bool :=
  jsStartsWith e.name "--" ||
    (match e.statMtimeMs with
     | some m => decide (now - m > 3600000)
     | none => false)

theorem sweepPass_eq_filter (now : Int) (dir : List DirEntry)
    (hst : ∀ e ∈ dir, jsStartsWith e.name "--" = false → e.statMtimeMs.isSome) :
    sweepPass now dir = (dir.filter (sweepCond now)).map DirEntry.name := by
  induction dir with
  | nil => rfl
  | cons e rest ih =>
    have hrest : ∀ x ∈ rest, jsStartsWith x.name "--" = false → x.statMtimeMs.isSome :=
      fun x hx => hst x (List.mem_cons_of_mem _ hx)
    have ih' := ih hrest
    simp only [sweepPass] at ih' ⊢
    by_cases hs : jsStartsWith e.name "--" = true
    · simp [sweepAttempt, hs, sweepCond, List.filter_cons, ih']
    · have hs' : jsStartsWith e.name "--" = false := by
        simpa using hs
      obtain ⟨m, hm⟩ := Option.isSome_iff_exists.mp (hst e (List.mem_cons_self e rest) hs')
      by_cases hold : now - m > 3600000
      · simp [sweepAttempt, hs', hm, hold, sweepCond, List.filter_cons, ih']
      · simp [sweepAttempt, hs', hm, hold, sweepCond, List.filter_cons, ih']

theorem sweepCond_iff (now : Int) (e : DirEntry) :
    sweepCond now e = true ↔
      (jsStartsWith e.name "--" = true ∨ ∃ m, e.statMtimeMs = some m ∧ now - m > 3600000) := by
  cases h : e.statMtimeMs with
  | none => simp [sweepCond, h]
  | some m => simp [sweepCond, h]

/-- C4: every sweep pass deletes exactly the entries whose name starts with
"--" (regardless of age) together with the entries whose modification time
lies more than 3600000 ms before `now`, and touches nothing else. Stated for
passes in which `statSync` succeeds on every non-fragment entry (stat
failures are the subject of C5) over a listing with distinct names. -/
theorem C4_sweep_deletes_exactly (now : Int) (dir : List DirEntry)
    (hnd : (dir.map DirEntry.name).Nodup)
    (hst : ∀ e ∈ dir, jsStartsWith e.name "--" = false → e.statMtimeMs.isSome) :
    (∀ n ∈ sweepPass now dir, n ∈ dir.map DirEntry.name) ∧
    ∀ e ∈ dir, (e.name ∈ sweepPass now dir ↔
      (jsStartsWith e.name "--" = true ∨ ∃ m, e.statMtimeMs = some m ∧ now - m > 3600000)) := by
  rw [sweepPass_eq_filter now dir hst]
  constructor
  · intro n hn
    rcases List.mem_map.mp hn with ⟨e, he, rfl⟩
    exact List.mem_map_of_mem _ (List.mem_of_mem_filter he)
  · intro e he
    constructor
    · intro hmem
      rcases List.mem_map.mp hmem with ⟨e2, he2, hname⟩
      have he2' := List.mem_of_mem_filter he2
      have heq : e2 = e := List.inj_on_of_nodup_map hnd he2' he hname
      subst heq
      exact (sweepCond_iff now e2).mp (List.of_mem_filter he2)
    · intro h
      exact List.mem_map_of_mem _ (List.mem_filter.mpr ⟨he, (sweepCond_iff now e).mpr h⟩)

/-- Concrete run of C4: a stale entry is removed by the pass. -/
theorem C4_sweep_deletes_exactly_witness :
    "old" ∈ sweepPass 7200000
      [⟨"--frag3", none, true⟩, ⟨"fresh", some 7000000, true⟩, ⟨"old", some 0, false⟩] := by
  have h := C4_sweep_deletes_exactly 7200000
    [⟨"--frag3", none, true⟩, ⟨"fresh", some 7000000, true⟩, ⟨"old", some 0, false⟩]
    (by decide) (by decide)
  exact (h.2 ⟨"old", some 0, false⟩ (by decide)).mpr (Or.inr ⟨0, rfl, by decide⟩)

/-- C5 counterexample: a stat failure on the first entry aborts the pass, so
the second entry - stale, hence due for deletion per the claim - is not even
examined: the pass deletes nothing. -/
theorem C5_counterexample :
    jsStartsWith "bb" "--" = false ∧ ((7200000 : Int) - 0 > 3600000) ∧
    "bb" ∉ sweepPass 7200000 [⟨"aa", none, true⟩, ⟨"bb", some 0, true⟩] := by decide

theorem sweepPass_map_removeOk (now : Int) (dir : List DirEntry) (f : DirEntry → Bool) :
    sweepPass now (dir.map fun e => (⟨e.name, e.statMtimeMs, f e⟩ : DirEntry)) = sweepPass now dir := by
  induction dir with
  | nil => rfl
  | cons e rest ih =>
    simp only [sweepPass, List.map_cons] at ih ⊢
    by_cases hs : jsStartsWith e.name "--" = true
    · simp [sweepAttempt, hs, ih]
    · have hs' : jsStartsWith e.name "--" = false := by simpa using hs
      cases hm : e.statMtimeMs with
      | none => simp [sweepAttempt, hs', hm]
      | some m =>
        by_cases hold : now - m > 3600000
        · simp [sweepAttempt, hs', hm, hold, ih]
        · simp [sweepAttempt, hs', hm, hold, ih]

theorem sweepPass_abort (now : Int) (pre rest : List DirEntry) (e : DirEntry)
    (hpre : ∀ x ∈ pre, jsStartsWith x.name "--" = true ∨ x.statMtimeMs.isSome)
    (hs : jsStartsWith e.name "--" = false) (hm : e.statMtimeMs = none) :
    sweepPass now (pre ++ e :: rest) = sweepPass now pre := by
  induction pre with
  | nil => simp [sweepPass, sweepAttempt, hs, hm]
  | cons x xs ih =>
    have hxs : ∀ y ∈ xs, jsStartsWith y.name "--" = true ∨ y.statMtimeMs.isSome :=
      fun y hy => hpre y (List.mem_cons_of_mem _ hy)
    have ih' := ih hxs
    simp only [sweepPass, List.cons_append] at ih' ⊢
    rcases hpre x (List.mem_cons_self x xs) with hx | hx
    · simp [sweepAttempt, hx, ih']
    · obtain ⟨m, hm2⟩ := Option.isSome_iff_exists.mp hx
      by_cases hs2 : jsStartsWith x.name "--" = true
      · simp [sweepAttempt, hs2, ih']
      · have hs2' : jsStartsWith x.name "--" = false := by simpa using hs2
        by_cases hold : now - m > 3600000
        · simp [sweepAttempt, hs2', hm2, hold, ih']
        · simp [sweepAttempt, hs2', hm2, hold, ih']

/-- C5 amended: the sweep never propagates an exception (it is a total
function of the listing, the outer try/catch absorbing the stat failure),
and removal outcomes never influence the pass (removals are
fire-and-forget); however a stat failure on one entry ends the pass there,
leaving every later entry unexamined until a later pass. -/
theorem C5_amended_sweep :
    (∀ (now : Int) (dir : List DirEntry) (f : DirEntry → Bool),
      sweepPass now (dir.map fun e => (⟨e.name, e.statMtimeMs, f e⟩ : DirEntry)) = sweepPass now dir) ∧
    (∀ (now : Int) (pre rest : List DirEntry) (e : DirEntry),
      (∀ x ∈ pre, jsStartsWith x.name "--" = true ∨ x.statMtimeMs.isSome) →
      jsStartsWith e.name "--" = false → e.statMtimeMs = none →
      sweepPass now (pre ++ e :: rest) = sweepPass now pre) :=
  ⟨sweepPass_map_removeOk, fun now pre rest e h1 h2 h3 => sweepPass_abort now pre rest e h1 h2 h3⟩

/-- Concrete run of the amended C5. -/
theorem C5_amended_sweep_witness :
    (sweepPass 7200000 (([⟨"aa", none, false⟩] : List DirEntry).map
        fun e => (⟨e.name, e.statMtimeMs, true⟩ : DirEntry)) =
      sweepPass 7200000 [⟨"aa", none, false⟩]) ∧
    sweepPass 7200000 [⟨"aa", none, true⟩, ⟨"bb", some 0, true⟩] = sweepPass 7200000 [] :=
  ⟨C5_amended_sweep.1 7200000 [⟨"aa", none, false⟩] (fun _ => true),
   C5_amended_sweep.2 7200000 [] [⟨"bb", some 0, true⟩] ⟨"aa", none, true⟩
     (by simp) (by decide) rfl⟩

/-! ## Download session (server.js lines 89 to 210; src/unnamed/part_000)

A session allocates a temp path `${Date.now()}_${rand}.${ext}` inside the
scratch directory (the part before the dot is called the stem below), asks
the engine to write there, and for format "mp3" re-locates the real output
by scanning the listing for the first entry that starts with the stem and
ends with one of the accepted audio containers. The read stream then pipes
the actual file out, and three handlers clean up afterwards. -/

/-- JS `\w`: ASCII alphanumerics and the underscore. -/
def isWordChar (c : Char) : Bool :=
  c.isAlphanum || c == '_'

/-- JS `\s`: the whitespace class of JavaScript regular expressions. -/
def jsWhitespaceChar (c : Char) : Bool :=
  c == ' ' || c == '\t' || c == '\n' || c == '\x0b' || c == '\x0c' || c == '\r' ||
  c == '\u00a0' || c == '\u1680' || ('\u2000' ≤ c && c ≤ '\u200a') ||
  c == '\u2028' || c == '\u2029' || c == '\u202f' || c == '\u205f' ||
  c == '\u3000' || c == '\ufeff'

/-- Helper for `replace(/\s+/g, t)` with a one-character target: the flag
says whether the previous character belonged to a whitespace run. -/
def collapseWsAux : Bool → List Char → List Char
  | _, [] => []
  | inRun, c :: rest =>
    if jsWhitespaceChar c then
      if inRun then collapseWsAux true rest
      else '_' :: collapseWsAux true rest
    else c :: collapseWsAux false rest

/-- `replace(/\s+/g, "_")`: each maximal whitespace run becomes one underscore. -/
def collapseWs (l : List Char) : List Char :=
  collapseWsAux false l

/-- Title sanitisation (server.js line 103): drop every character outside
the class `[\w\s-]`, then collapse whitespace runs to single underscores. -/
def sanitizeTitle (t : String) : String :=
  String.mk (collapseWs (t.data.filter fun c =>
    isWordChar c || jsWhitespaceChar c || c == '-'))

/-- `const { format = "mp4" } = req.query`. -/
def requestedFormat (q : Option String) : String :=
  q.getD "mp4"

/-- Engine format selector (server.js lines 124 to 126) paired with the
declared output extension, i.e. the extension the Content-Disposition
filename template `${videoTitle}.${format}` uses (line 104). -/
def resolveFormat (q : Option String) : String × String :=
  let f := requestedFormat q
  (if f == "mp3"
    then "bestaudio[ext=m4a]/bestaudio[ext=opus]/bestaudio[ext=webm]/bestaudio"
    else "best[ext=mp4]/best",
   f)

/-- Allocated temp-file name (server.js line 118): the stem followed by
".m4a" for format "mp3" and ".mp4" otherwise. -/
def allocatedName (stem fmt : String) : String :=
  stem ++ "." ++ (if fmt == "mp3" then "m4a" else "mp4")

/-- The predicate of the mp3-branch artifact scan (server.js lines 141 to
144): entry starts with the stem and ends with an accepted audio container. -/
def isMp3Artifact (stem f : String) : Bool :=
  jsStartsWith f stem &&
    (jsEndsWith f ".m4a" || jsEndsWith f ".opus" || jsEndsWith f ".webm")

/-- `files.find(...)` over the scratch listing: first matching entry. -/
def findDownloadedFile (dir : List String) (stem : String) : Option String :=
  dir.find? (isMp3Artifact stem)

/-- `fileName = downloadedFile.replace(/\.(m4a|opus|webm)$/, ".mp3")`
(server.js line 147). -/
def replaceAudioExtWithMp3 (f : String) : String :=
  if jsEndsWith f ".m4a" then String.mk (f.data.take (f.data.length - 4)) ++ ".mp3"
  else if jsEndsWith f ".opus" then String.mk (f.data.take (f.data.length - 5)) ++ ".mp3"
  else if jsEndsWith f ".webm" then String.mk (f.data.take (f.data.length - 5)) ++ ".mp3"
  else f

/-- The Content-Disposition filename first set (server.js lines 103 to 107):
sanitised title, dot, requested format string. -/
def initialFileName (title fmt : String) : String :=
  sanitizeTitle title ++ "." ++ fmt

/-- The Content-Disposition filename in force when streaming starts: in the
mp3 branch, when the artifact scan finds an entry, the header is re-set to
that entry name with its audio extension replaced by ".mp3"
(server.js lines 145 to 149); otherwise the initial filename stands. -/
def finalFileName (title fmt : String) (dir : List String) (stem : String) : String :=
  if fmt == "mp3" then
    match findDownloadedFile dir stem with
    | some f => replaceAudioExtWithMp3 f
    | none => initialFileName title fmt
  else initialFileName title fmt

/-- How a download response stream can terminate: normal end of the read
stream, a read-stream error, or the client closing the connection. -/
inductive StreamEnd where
  | ended
  | failed
  | clientClosed
deriving DecidableEq

/-- Cleanup of the "end" handler (server.js lines 157 to 174) and of the
req "close" handler (lines 185 to 201): remove the actual file, then every
listing entry whose name starts with "--" or with the session stem.
The result is the listing that survives. -/
def cleanupFull (dir : List String) (actual stem : String) : List String :=
  dir.filter fun f =>
    !(f == actual) && !(jsStartsWith f "--") && !(jsStartsWith f stem)

/-- Cleanup of the read-stream "error" handler (server.js lines 176 to 182,
part_000 lines 114 to 120): only the actual file is removed. -/
def cleanupOnError (dir : List String) (actual : String) : List String :=
  dir.filter fun f => !(f == actual)

/-- The cleanup pass the given termination mode triggers. In server.js the
"end" and "close" handlers run the full cleanup while the "error" handler
removes only the actual file; part_000 registers the same "end" and "error"
handlers and no "close" handler, so for it only the first two modes exist. -/
def cleanupAfter : StreamEnd → List String → String → String → List String
  | StreamEnd.ended, dir, actual, stem => cleanupFull dir actual stem
  | StreamEnd.failed, dir, actual, _ => cleanupOnError dir actual
  | StreamEnd.clientClosed, dir, actual, stem => cleanupFull dir actual stem

theorem allocatedName_eq (stem fmt : String) :
    allocatedName stem fmt = stem ++ (if fmt == "mp3" then ".m4a" else ".mp4") := by
  unfold allocatedName
  by_cases h : fmt == "mp3"
  · simp [h, String.append_assoc]
  · simp [h, String.append_assoc]

theorem jsStartsWith_allocatedName (stem fmt : String) :
    jsStartsWith (allocatedName stem fmt) stem = true := by
  rw [allocatedName_eq]
  exact jsStartsWith_append stem _

theorem jsEndsWith_allocatedName_m4a (stem : String) :
    jsEndsWith (allocatedName stem "mp3") ".m4a" = true := by
  rw [allocatedName_eq]
  simpa using jsEndsWith_append stem ".m4a"

/-- C1 counterexample: an mp3 session whose listing holds both an
".opus" artifact and a file at the allocated ".m4a" path. Discovery
resolves the actual path to the ".opus" entry, and the cleanup pass run by
the read-stream error handler removes only that actual file, so the
originally allocated temp path still exists on disk after the pass -
against the claim, which promises its removal for every way the stream
ends. -/
theorem C1_counterexample :
    findDownloadedFile ["1000_abc.opus", "1000_abc.m4a"] "1000_abc" = some "1000_abc.opus" ∧
    allocatedName "1000_abc" "mp3" ∈
      cleanupAfter StreamEnd.failed ["1000_abc.opus", "1000_abc.m4a"]
        ((findDownloadedFile ["1000_abc.opus", "1000_abc.m4a"] "1000_abc").getD
          (allocatedName "1000_abc" "mp3"))
        "1000_abc" := by decide

/-- C1 amended: after a normal stream end and after a client disconnect the
handler removes the actual file and every listing entry starting with the
session stem or with "--" - in particular the allocated name is gone, and
every entry matching none of the three criteria survives; after a
read-stream error, however, only the actual file is removed and every other
entry (the allocated path included, when distinct) survives that cleanup
pass. -/
theorem C1_amended_cleanup (mode : StreamEnd) (dir : List String) (stem fmt actual : String) :
    (mode ≠ StreamEnd.failed →
      (∀ f ∈ cleanupAfter mode dir actual stem,
        f ≠ actual ∧ jsStartsWith f "--" = false ∧ jsStartsWith f stem = false) ∧
      (∀ f ∈ dir, f ≠ actual → jsStartsWith f "--" = false → jsStartsWith f stem = false →
        f ∈ cleanupAfter mode dir actual stem) ∧
      allocatedName stem fmt ∉ cleanupAfter mode dir actual stem) ∧
    (actual ∉ cleanupAfter StreamEnd.failed dir actual stem ∧
      ∀ f ∈ dir, f ≠ actual → f ∈ cleanupAfter StreamEnd.failed dir actual stem) := by
  constructor
  · intro hmode
    have hc : cleanupAfter mode dir actual stem = cleanupFull dir actual stem := by
      cases mode with
      | ended => rfl
      | failed => exact absurd rfl hmode
      | clientClosed => rfl
    rw [hc]
    refine ⟨?_, ?_, ?_⟩
    · intro f hf
      have hp := List.of_mem_filter hf
      simp only [Bool.and_eq_true, Bool.not_eq_true', beq_eq_false_iff_ne] at hp
      exact ⟨hp.1.1, hp.1.2, hp.2⟩
    · intro f hf h1 h2 h3
      exact List.mem_filter.mpr ⟨hf, by simp [h1, h2, h3]⟩
    · intro hmem
      have hp := List.of_mem_filter hmem
      simp only [Bool.and_eq_true, Bool.not_eq_true'] at hp
      exact absurd (jsStartsWith_allocatedName stem fmt) (by simp [hp.2])
  · constructor
    · intro hmem
      have hp := List.of_mem_filter hmem
      simp at hp
    · intro f hf hne
      exact List.mem_filter.mpr ⟨hf, by simp [hne]⟩

/-- Concrete run of the amended C1. -/
theorem C1_amended_cleanup_witness :
    allocatedName "1000_abc" "mp3" ∉
      cleanupAfter StreamEnd.ended ["1000_abc.m4a", "--frag", "other.txt"]
        "1000_abc.m4a" "1000_abc" :=
  ((C1_amended_cleanup StreamEnd.ended ["1000_abc.m4a", "--frag", "other.txt"]
      "1000_abc" "mp3" "1000_abc.m4a").1 (by decide)).2.2

theorem mem_collapseWsAux (l : List Char) :
    ∀ (b : Bool), ∀ c ∈ collapseWsAux b l, c = '_' ∨ (c ∈ l ∧ jsWhitespaceChar c = false) := by
  induction l with
  | nil => intro b c hc; simp [collapseWsAux] at hc
  | cons a rest ih =>
    intro b c hc
    by_cases hws : jsWhitespaceChar a = true
    · cases b with
      | true =>
        rw [show collapseWsAux true (a :: rest) = collapseWsAux true rest from by
          simp [collapseWsAux, hws]] at hc
        rcases ih true c hc with h | ⟨h1, h2⟩
        · exact Or.inl h
        · exact Or.inr ⟨List.mem_cons_of_mem _ h1, h2⟩
      | false =>
        rw [show collapseWsAux false (a :: rest) = '_' :: collapseWsAux true rest from by
          simp [collapseWsAux, hws]] at hc
        rcases List.mem_cons.mp hc with rfl | hc
        · exact Or.inl rfl
        · rcases ih true c hc with h | ⟨h1, h2⟩
          · exact Or.inl h
          · exact Or.inr ⟨List.mem_cons_of_mem _ h1, h2⟩
    · have hws' : jsWhitespaceChar a = false := by simpa using hws
      rw [show collapseWsAux b (a :: rest) = a :: collapseWsAux false rest from by
        simp [collapseWsAux, hws']] at hc
      rcases List.mem_cons.mp hc with rfl | hc
      · exact Or.inr ⟨List.mem_cons_self _ _, hws'⟩
      · rcases ih false c hc with h | ⟨h1, h2⟩
        · exact Or.inl h
        · exact Or.inr ⟨List.mem_cons_of_mem _ h1, h2⟩

theorem sanitizeTitle_chars (t : String) :
    ∀ c ∈ (sanitizeTitle t).data, isWordChar c = true ∨ c = '-' := by
  intro c hc
  rcases mem_collapseWsAux _ false c hc with rfl | ⟨h1, h2⟩
  · exact Or.inl (by decide)
  · have hkeep := List.of_mem_filter h1
    simp only [Bool.or_eq_true, beq_iff_eq] at hkeep
    rcases hkeep with (hw | hs) | hd
    · exact Or.inl hw
    · exact absurd hs (by simp [h2])
    · exact Or.inr hd

theorem replaceAudioExt_endsWith (f : String)
    (h : jsEndsWith f ".m4a" = true ∨ jsEndsWith f ".opus" = true ∨ jsEndsWith f ".webm" = true) :
    jsEndsWith (replaceAudioExtWithMp3 f) ".mp3" = true := by
  unfold replaceAudioExtWithMp3
  by_cases h1 : jsEndsWith f ".m4a" = true
  · simp [h1, jsEndsWith_append]
  · by_cases h2 : jsEndsWith f ".opus" = true
    · simp [h1, h2, jsEndsWith_append]
    · by_cases h3 : jsEndsWith f ".webm" = true
      · simp [h1, h2, h3, jsEndsWith_append]
      · rcases h with h | h | h <;> simp_all

/-- C2 counterexample: an mp3 session with title "My Video" whose engine
output is "1000_abc.opus". The discovery branch re-sets the
Content-Disposition filename to the temp name "1000_abc.mp3", which is not
the sanitised-title-derived "My_Video.mp3" the claim promises for this
case. -/
theorem C2_counterexample :
    findDownloadedFile ["1000_abc.opus"] "1000_abc" = some "1000_abc.opus" ∧
    finalFileName "My Video" "mp3" ["1000_abc.opus"] "1000_abc" = "1000_abc.mp3" ∧
    initialFileName "My Video" "mp3" = "My_Video.mp3" ∧
    finalFileName "My Video" "mp3" ["1000_abc.opus"] "1000_abc" ≠
      sanitizeTitle "My Video" ++ "." ++ "mp3" := by decide

/-- C2 amended: the initially set Content-Disposition filename is the
resolved title with every character outside the class stripped and
whitespace runs collapsed to single underscores, followed by a dot and the
requested format string (so every sanitised-title character is a word
character or a hyphen); and this filename stands whenever the format is not
"mp3" or the mp3 artifact scan finds nothing. But when the scan finds an
entry, the header is re-set to that entry name with its audio extension
replaced by ".mp3" - no longer derived from the title, though still ending
in ".mp3". -/
theorem C2_amended_fileName :
    (∀ t, ∀ c ∈ (sanitizeTitle t).data, isWordChar c = true ∨ c = '-') ∧
    (∀ t fmt dir stem, fmt ≠ "mp3" →
      finalFileName t fmt dir stem = sanitizeTitle t ++ "." ++ fmt) ∧
    (∀ t dir stem, findDownloadedFile dir stem = none →
      finalFileName t "mp3" dir stem = sanitizeTitle t ++ "." ++ "mp3") ∧
    (∀ t dir stem f, findDownloadedFile dir stem = some f →
      finalFileName t "mp3" dir stem = replaceAudioExtWithMp3 f ∧
      jsEndsWith (finalFileName t "mp3" dir stem) ".mp3" = true) := by
  refine ⟨sanitizeTitle_chars, ?_, ?_, ?_⟩
  · intro t fmt dir stem hfmt
    have hb : (fmt == "mp3") = false := beq_eq_false_iff_ne.mpr hfmt
    simp [finalFileName, initialFileName, hb]
  · intro t dir stem h
    simp [finalFileName, initialFileName, h]
  · intro t dir stem f h
    have hf := List.find?_some h
    simp only [isMp3Artifact, Bool.and_eq_true, Bool.or_eq_true] at hf
    have he : finalFileName t "mp3" dir stem = replaceAudioExtWithMp3 f := by
      simp [finalFileName, h]
    exact ⟨he, he ▸ replaceAudioExt_endsWith f (or_assoc.mp hf.2)⟩

/-- Concrete run of the amended C2. -/
theorem C2_amended_fileName_witness :
    finalFileName "My Video" "mp3" ["1000_abc.opus"] "1000_abc" =
      replaceAudioExtWithMp3 "1000_abc.opus" ∧
    jsEndsWith (finalFileName "My Video" "mp3" ["1000_abc.opus"] "1000_abc") ".mp3" = true :=
  C2_amended_fileName.2.2.2 "My Video" ["1000_abc.opus"] "1000_abc" "1000_abc.opus" (by decide)

/-- Response observed by the client for the streaming phase of a download. -/
inductive ServeOutcome where
  | streamed (fileName : String)
  | errorResponse (status : Nat) (body : String)
deriving DecidableEq

/-- Post-engine phase of an mp3 download (server.js lines 138 to 182): the
actual path is the first matching artifact, falling back to the allocated
path; `createReadStream` on a listing entry pipes it out (and the "end"
handler cleans up afterwards), while on an absent file the read stream
emits an error before any body byte, so the "error" handler answers
status 500 with body "Failed to stream video" and removes the actual path.
Returns the observed response and the listing surviving the cleanup pass
taken; returning a response at all reflects that the failure is fatal only
to this request. -/
def mp3ServePhase (title : String) (dir : List String) (stem : String) : ServeOutcome × List String :=
  let alloc := allocatedName stem "mp3"
  let actual := (findDownloadedFile dir stem).getD alloc
  if actual ∈ dir then
    (ServeOutcome.streamed (finalFileName title "mp3" dir stem), cleanupFull dir actual stem)
  else
    (ServeOutcome.errorResponse 500 "Failed to stream video", cleanupOnError dir actual)

/-- C3: for an mp3 download where the engine reported success but no
listing entry starts with the session stem and ends with .m4a, .opus or
.webm, the request fails with a 500 response (the EngineOutputMissing case
of the spec; the model returns a response rather than aborting, fatal only
to this request), and the allocated path does not exist after the cleanup
pass that follows. -/
theorem C3_engine_output_missing (title : String) (dir : List String) (stem : String)
    (h : findDownloadedFile dir stem = none) :
    (mp3ServePhase title dir stem).1 = ServeOutcome.errorResponse 500 "Failed to stream video" ∧
    allocatedName stem "mp3" ∉ (mp3ServePhase title dir stem).2 := by
  have halloc : allocatedName stem "mp3" ∉ dir := by
    intro hmem
    have hall := List.find?_eq_none.mp h _ hmem
    apply hall
    simp [isMp3Artifact, jsStartsWith_allocatedName, jsEndsWith_allocatedName_m4a]
  have hout : mp3ServePhase title dir stem =
      (ServeOutcome.errorResponse 500 "Failed to stream video",
        cleanupOnError dir (allocatedName stem "mp3")) := by
    simp [mp3ServePhase, h, halloc]
  refine ⟨by rw [hout], ?_⟩
  rw [hout]
  intro hmem
  exact halloc (List.mem_of_mem_filter hmem)

/-- Concrete run of C3: the engine left only a fragment file behind. -/
theorem C3_engine_output_missing_witness :
    (mp3ServePhase "My Video" ["--frag17"] "1000_abc").1 =
      ServeOutcome.errorResponse 500 "Failed to stream video" ∧
    allocatedName "1000_abc" "mp3" ∉ (mp3ServePhase "My Video" ["--frag17"] "1000_abc").2 :=
  C3_engine_output_missing "My Video" ["--frag17"] "1000_abc" (by decide)

/-- C6: format resolution is a pure mapping: "mp3" yields the audio
selector chain and declared extension "mp3"; every other requested format
string yields the selector "best[ext=mp4]/best"; an absent parameter
defaults to "mp4", so resolving "mp4" and resolving an absent format give
identical results. -/
theorem C6_format_resolution :
    resolveFormat (some "mp3") =
      ("bestaudio[ext=m4a]/bestaudio[ext=opus]/bestaudio[ext=webm]/bestaudio", "mp3") ∧
    (∀ f, f ≠ "mp3" → (resolveFormat (some f)).1 = "best[ext=mp4]/best") ∧
    (resolveFormat none).1 = "best[ext=mp4]/best" ∧
    resolveFormat (some "mp4") = resolveFormat none := by
  refine ⟨rfl, ?_, rfl, rfl⟩
  intro f hf
  have hb : (f == "mp3") = false := beq_eq_false_iff_ne.mpr hf
  simp [resolveFormat, requestedFormat, hb]

/-- Concrete run of C6 for a format other than mp3 and mp4. -/
theorem C6_format_resolution_witness :
    (resolveFormat (some "avi")).1 = "best[ext=mp4]/best" :=
  C6_format_resolution.2.1 "avi" (by decide)

/-! ## Formats endpoint resolution field (server.js line 231, part_001 line 43) -/

/-- JS truthiness of a possibly-undefined string: undefined and "" are falsy. -/
def jsTruthyStr : Option String → Bool
  | none => false
  | some s => !(s == "")

/-- JS truthiness of a possibly-undefined number: undefined and 0 are falsy. -/
def jsTruthyNat : Option Nat → Bool
  | none => false
  | some n => !(n == 0)

/-- JS template interpolation of a possibly-undefined number. -/
def jsNumToString : Option Nat → String
  | none => "undefined"
  | some n => toString n

/-- The resolution field of a formats descriptor. The source expression
`format.resolution || format.height ? ... : "unknown"` parses in JavaScript
as `(format.resolution || format.height) ? ... : "unknown"`, the ternary
branch interpolating `format.height` even when only `format.resolution` was
truthy. -/
def resolutionField (r : Option String) (h : Option Nat) : String :=
  if jsTruthyStr r || jsTruthyNat h then jsNumToString h ++ "p" else "unknown"

/-- C7 counterexample: a descriptor with a truthy raw resolution (as the
engine reports for audio-only formats) and no height: the field evaluates
to the string "undefinedp", which is neither "unknown" nor of the form
height-then-p for a height of the descriptor. -/
theorem C7_counterexample :
    resolutionField (some "audio only") none = "undefinedp" ∧
    ¬(resolutionField (some "audio only") none = "unknown" ∨
      ∃ h : Nat, (none : Option Nat) = some h ∧
        resolutionField (some "audio only") none = toString h ++ "p") := by
  refine ⟨by decide, ?_⟩
  rintro (h | ⟨h, hh, _⟩)
  · exact absurd h (by decide)
  · exact Option.noConfusion hh

/-- C7 amended: the resolution field is "unknown" when raw resolution and
height are both falsy; otherwise it interpolates the height, giving
height-then-p when the height is defined and the literal "undefinedp" when
a truthy raw resolution meets an undefined height. -/
theorem C7_amended_resolution (r : Option String) (h : Option Nat) :
    resolutionField r h = "unknown" ∨
    (∃ n, h = some n ∧ resolutionField r h = toString n ++ "p") ∨
    (jsTruthyStr r = true ∧ h = none ∧ resolutionField r h = "undefinedp") := by
  cases h with
  | none =>
    by_cases hr : jsTruthyStr r = true
    · exact Or.inr (Or.inr ⟨hr, rfl, by simp [resolutionField, hr, jsNumToString]⟩)
    · have hr' : jsTruthyStr r = false := by simpa using hr
      exact Or.inl (by simp [resolutionField, hr', jsTruthyNat])
  | some n =>
    by_cases hcond : (jsTruthyStr r || jsTruthyNat (some n)) = true
    · exact Or.inr (Or.inl ⟨n, rfl, by simp [resolutionField, hcond, jsNumToString]⟩)
    · have hcond' : (jsTruthyStr r || jsTruthyNat (some n)) = false := by simpa using hcond
      exact Or.inl (by simp [resolutionField, hcond'])

/-! ## Video-info failure responses (server.js 81 to 85; part_001 both variants) -/

/-- `x || dflt` for a possibly-undefined string. -/
def jsOrElse (m : Option String) (dflt : String) : String :=
  if jsTruthyStr m then m.getD dflt else dflt

/-- Catch branch of /api/video-info in the express server (server.js lines
81 to 85): always status 500, body message from the error when truthy. -/
def videoInfoFailureExpress (msg : Option String) : Nat × String :=
  (500, jsOrElse msg "Failed to get video information")

/-- Catch branch of the serverless video-info function (part_001, both
variants): status 503 with code SERVICE_UNAVAILABLE exactly when
`error.message && error.message.includes("yt-dlp")`; otherwise status 500
with the message and `error.code || "UNKNOWN"`. -/
def videoInfoFailureServerless (msg code : Option String) : Nat × String × String :=
  if jsTruthyStr msg && jsIncludes (msg.getD "") "yt-dlp" then
    (503,
     "YouTube downloader service is temporarily unavailable. Please try again later or use a different hosting platform.",
     "SERVICE_UNAVAILABLE")
  else
    (500, jsOrElse msg "Failed to get video information", jsOrElse code "UNKNOWN")

/-- C8 counterexample: the express variant answers an engine-unavailable
failure (here the exact message the serverless initializer throws when the
engine binary cannot be obtained) with status 500, not with the 503 the
claim promises for both deployment variants. -/
theorem C8_counterexample :
    (videoInfoFailureExpress (some "yt-dlp binary is not available and could not be downloaded. Please ensure the binary is installed during build.")).1 = 500 ∧
    (500 : Nat) ≠ 503 := by
  exact ⟨rfl, by decide⟩

/-- C8 amended: on an engine failure of the video-info endpoint, the
express variant always answers 500 carrying the error message when truthy;
only the serverless variant has a 503 branch, taken exactly when the error
message is truthy and contains the substring "yt-dlp", carrying the stable
code SERVICE_UNAVAILABLE; its other failures answer 500 with the message. -/
theorem C8_amended_video_info_errors :
    (∀ msg : Option String, (videoInfoFailureExpress msg).1 = 500) ∧
    (∀ s : String, s ≠ "" → (videoInfoFailureExpress (some s)).2 = s) ∧
    (∀ msg code : Option String,
      ((videoInfoFailureServerless msg code).1 = 503 ↔
        (jsTruthyStr msg = true ∧ jsIncludes (msg.getD "") "yt-dlp" = true))) ∧
    (∀ msg code : Option String, (videoInfoFailureServerless msg code).1 = 503 →
      (videoInfoFailureServerless msg code).2.2 = "SERVICE_UNAVAILABLE") ∧
    (∀ (s : String) (code : Option String), s ≠ "" → jsIncludes s "yt-dlp" = false →
      videoInfoFailureServerless (some s) code = (500, s, jsOrElse code "UNKNOWN")) := by
  refine ⟨fun msg => rfl, ?_, ?_, ?_, ?_⟩
  · intro s hs
    simp [videoInfoFailureExpress, jsOrElse, jsTruthyStr, hs]
  · intro msg code
    by_cases hc : (jsTruthyStr msg && jsIncludes (msg.getD "") "yt-dlp") = true
    · constructor
      · intro _
        simpa using hc
      · intro _
        simp [videoInfoFailureServerless, hc]
    · have hc2 : (jsTruthyStr msg && jsIncludes (msg.getD "") "yt-dlp") = false := by
        simpa using hc
      constructor
      · intro h503
        exfalso
        simp [videoInfoFailureServerless, hc2] at h503
      · rintro ⟨h1, h2⟩
        simp [h1, h2] at hc2
  · intro msg code h503
    by_cases hc : (jsTruthyStr msg && jsIncludes (msg.getD "") "yt-dlp") = true
    · simp [videoInfoFailureServerless, hc]
    · have hc2 : (jsTruthyStr msg && jsIncludes (msg.getD "") "yt-dlp") = false := by
        simpa using hc
      simp [videoInfoFailureServerless, hc2] at h503
  · intro s code hs hinc
    simp [videoInfoFailureServerless, jsOrElse, jsTruthyStr, hs, hinc]

/-- Concrete run of the amended C8: an ordinary engine failure keeps its
message under 500 in the express variant, and an engine-unavailable message
trips the serverless 503 branch. -/
theorem C8_amended_video_info_errors_witness :
    (videoInfoFailureExpress (some "Video unavailable")).2 = "Video unavailable" ∧
    (videoInfoFailureServerless (some "yt-dlp failed to initialize") none).1 = 503 :=
  ⟨C8_amended_video_info_errors.2.1 "Video unavailable" (by decide),
   (C8_amended_video_info_errors.2.2.1 (some "yt-dlp failed to initialize") none).mpr
     ⟨by decide, by decide⟩⟩

/-! ## URL validation and the request gate

All five handlers (express /api/video-info, /api/download, /api/formats and
the two serverless functions) run the same two checks before anything else:
`if (!url) return 400 "YouTube URL is required"` and
`if (!validateYouTubeURL(url)) return 400 "Invalid YouTube URL"`. -/

/-- The line terminators that the unflagged JS `.` does not match. -/
def lineTerminator (c : Char) : Bool :=
  c == '\n' || c == '\r' || c == '\u2028' || c == '\u2029'

/-- Match a literal character sequence, then require one further character
that `.` accepts; the regex is unanchored on the right, so anything may
follow that character. -/
def ytTail : List Char → List Char → Bool
  | [], [] => false
  | [], c :: _ => !lineTerminator c
  | _ :: _, [] => false
  | p :: ps, c :: cs => p == c && ytTail ps cs

/-- `validateYouTubeURL` (server.js lines 46 to 49 and both serverless
copies): `test` of the regex
`^(https?:\/\/)?(www\.)?(youtube\.com|youtu\.be)\/.+`, expanded into its
twelve scheme/www/host alternatives: the string starts with one of them
followed by "/" and at least one non-line-terminator character; nothing
after that first character is constrained. -/
def validateYouTubeURL (s : String) : Bool :=
  (["", "http://", "https://"] : List String).any fun p =>
    (["", "www."] : List String).any fun w =>
      (["youtube.com", "youtu.be"] : List String).any fun h =>
        ytTail (p ++ w ++ h ++ "/").data s.data

/-- Outcome of the two checks guarding every endpoint. -/
inductive GateResult where
  | reject (status : Nat) (msg : String)
  | accept (url : String)
deriving DecidableEq

/-- The url gate shared by all handlers: `req.query.url` is `none` when the
parameter is absent; an empty string is falsy for `!url` as well. -/
def urlGate (url : Option String) : GateResult :=
  match url with
  | none => GateResult.reject 400 "YouTube URL is required"
  | some u =>
    if u == "" then GateResult.reject 400 "YouTube URL is required"
    else if validateYouTubeURL u then GateResult.accept u
    else GateResult.reject 400 "Invalid YouTube URL"

/-- Externally visible actions of a handler. -/
inductive HandlerStep where
  | respond (status : Nat)
  | engineCall
  | scratchCreate (name : String)
deriving DecidableEq

/-- The effect trace of any of the endpoints up to its first engine
interaction: a rejected request answers 400 at once, and an accepted one
reaches the engine metadata call before any temp path is allocated
(server.js line 118 runs after line 102); the trace is cut there because
the claims below concern rejected requests only. -/
def handlerGateTrace (url : Option String) : List HandlerStep :=
  match urlGate url with
  | GateResult.reject s _ => [HandlerStep.respond s]
  | GateResult.accept _ => [HandlerStep.engineCall]

/-- C9: a download, video-info or formats request whose url parameter is
missing, empty, or rejected by the URL validator answers 400, makes no
engine call, and creates no scratch-directory entry. -/
theorem C9_invalid_url_rejected (url : Option String)
    (h : url = none ∨ url = some "" ∨ ∃ u, url = some u ∧ validateYouTubeURL u = false) :
    handlerGateTrace url = [HandlerStep.respond 400] ∧
    HandlerStep.engineCall ∉ handlerGateTrace url ∧
    ∀ n, HandlerStep.scratchCreate n ∉ handlerGateTrace url := by
  have htr : handlerGateTrace url = [HandlerStep.respond 400] := by
    rcases h with rfl | rfl | ⟨u, rfl, hv⟩
    · rfl
    · rfl
    · by_cases hu : u == ""
      · simp [handlerGateTrace, urlGate, hu]
      · simp [handlerGateTrace, urlGate, hu, hv]
  refine ⟨htr, ?_, ?_⟩
  · rw [htr]
    simp
  · intro n
    rw [htr]
    simp

/-- Concrete run of C9 on the malformed URL of spec scenario D. -/
theorem C9_invalid_url_rejected_witness :
    handlerGateTrace (some "not-a-url") = [HandlerStep.respond 400] :=
  (C9_invalid_url_rejected (some "not-a-url")
    (Or.inr (Or.inr ⟨"not-a-url", rfl, by decide⟩))).1

theorem ytTail_iff (p : List Char) : ∀ l, ytTail p l = true ↔
    ∃ c cs, l = p ++ c :: cs ∧ lineTerminator c = false := by
  induction p with
  | nil =>
    intro l
    cases l with
    | nil =>
      constructor
      · intro h
        exact absurd h (by simp [ytTail])
      · rintro ⟨c, cs, heq, _⟩
        exact absurd heq (by simp)
    | cons c cs =>
      constructor
      · intro h
        refine ⟨c, cs, rfl, ?_⟩
        simpa [ytTail] using h
      · rintro ⟨c2, cs2, heq, hlt⟩
        obtain ⟨rfl, rfl⟩ : c = c2 ∧ cs = cs2 := by
          simpa using heq
        simp [ytTail, hlt]
  | cons a ps ih =>
    intro l
    cases l with
    | nil =>
      constructor
      · intro h
        exact absurd h (by simp [ytTail])
      · rintro ⟨c, cs, heq, _⟩
        exact absurd heq (by simp)
    | cons b bs =>
      constructor
      · intro h
        have h' : (a == b && ytTail ps bs) = true := by simpa [ytTail] using h
        obtain ⟨hab, ht⟩ := Bool.and_eq_true _ _ |>.mp h'
        obtain ⟨c, cs, rfl, hc⟩ := (ih bs).mp ht
        have hab' : a = b := beq_iff_eq.mp hab
        subst hab'
        exact ⟨c, cs, rfl, hc⟩
      · rintro ⟨c, cs, heq, hc⟩
        rw [List.cons_append] at heq
        injection heq with h1 h2
        subst h1
        simp [ytTail, (ih bs).mpr ⟨c, cs, h2, hc⟩]

/-- C10: the validator accepts a string exactly when it matches the regex
`^(https?:\/\/)?(www\.)?(youtube\.com|youtu\.be)\/.+` - an optional scheme,
an optional "www.", one of the two hosts, a slash, and at least one
character that the unflagged dot accepts; and every string the validator
rejects (well-formed URLs of any other host included) is answered by the
shared gate with a 400 rejection before any engine interaction. -/
theorem C10_validator (s : String) :
    (validateYouTubeURL s = true ↔
      ∃ p ∈ (["", "http://", "https://"] : List String),
        ∃ w ∈ (["", "www."] : List String),
          ∃ h ∈ (["youtube.com", "youtu.be"] : List String),
            ∃ c cs, s.data = (p ++ w ++ h ++ "/").data ++ c :: cs ∧
              lineTerminator c = false) ∧
    (validateYouTubeURL s = false →
      ∃ m, urlGate (some s) = GateResult.reject 400 m ∧
        HandlerStep.engineCall ∉ handlerGateTrace (some s)) := by
  constructor
  · unfold validateYouTubeURL
    simp only [List.any_eq_true, ytTail_iff]
  · intro hv
    by_cases hs : s == ""
    · refine ⟨"YouTube URL is required", by simp [urlGate, hs], ?_⟩
      simp [handlerGateTrace, urlGate, hs]
    · refine ⟨"Invalid YouTube URL", by simp [urlGate, hs, hv], ?_⟩
      simp [handlerGateTrace, urlGate, hs, hv]

/-- Concrete run of C10: a well-formed URL of another host is rejected. -/
theorem C10_validator_witness :
    ∃ m, urlGate (some "https://vimeo.com/123456") = GateResult.reject 400 m ∧
      HandlerStep.engineCall ∉ handlerGateTrace (some "https://vimeo.com/123456") :=
  (C10_validator "https://vimeo.com/123456").2 (by decide)
